import Mathlib

/-
  Verification development for the rendered-page structural extraction engine
  (local-files/spiders/website-analyzer.js).

  The browser-side code is shallowly embedded: the rendered DOM is a finite
  tree of element nodes carrying their resolved (computed) style values, the
  browser's `document.querySelectorAll('*')` is the preorder flattening of
  that tree, and JavaScript collection semantics (Set insertion, Map.set,
  object-literal duplicate keys, Array.prototype.indexOf/join/split) are
  embedded by small executable functions that reproduce them exactly.
  Element identity (JS reference equality) is represented by the element's
  tree path, which is unique per node.
-/

/-! ## JavaScript string and collection semantics -/

/-- JS `Set.prototype.add` on a set kept in insertion order:
append the value only if it is not already present. -/
def addToSet (s : List String) (v : String) : List String :=
  if v ∈ s then s else s ++ [v]

/-- JS `String.prototype.split` with a single-character separator,
on the character list. `''.split(sep)` gives `['']`. -/
def splitOnChar (sep : Char) : List Char → List (List Char)
  | [] => [[]]
  | c :: cs =>
    let r := splitOnChar sep cs
    if c = sep then [] :: r
    else
      match r with
      | [] => [[c]]
      | w :: ws => (c :: w) :: ws

/-- JS `className.split(' ')` as a list of strings. -/
def jsSplitSpace (s : String) : List String :=
  (splitOnChar ' ' s.data).map String.mk

/-- JS `String.prototype.trim`: strip whitespace from both ends. -/
def jsTrim (s : String) : String :=
  String.mk (((s.data.dropWhile Char.isWhitespace).reverse.dropWhile Char.isWhitespace).reverse)

/-- JS `String.prototype.substring(0, n)`. -/
def jsTake (n : Nat) (s : String) : String :=
  String.mk (s.data.take n)

/-- JS `String.prototype.toLowerCase` (ASCII range, which covers tag names). -/
def jsToLower (s : String) : String :=
  String.mk (s.data.map Char.toLower)

/-- JS `Array.prototype.join(sep)`. -/
def joinSep (sep : String) : List String → String
  | [] => ""
  | [s] => s
  | s :: rest => s ++ sep ++ joinSep sep rest

/-- Does `pat` occur as a contiguous sublist of `l`? -/
def isSubList (pat : List Char) : List Char → Bool
  | [] => pat.isEmpty
  | c :: cs => pat.isPrefixOf (c :: cs) || isSubList pat cs

/-- JS `String.prototype.includes(pat)`. -/
def includesSub (pat s : String) : Bool :=
  isSubList pat.data s.data

/-- First-index lookup used to embed JS `Array.prototype.indexOf`:
returns the position of the first occurrence, counting from `i`. -/
def findIdxFrom (x : List Nat) (i : Nat) : List (List Nat) → Option Nat
  | [] => none
  | y :: ys => if y = x then some i else findIdxFrom x (i + 1) ys

/-- JS `Array.prototype.indexOf` over a list of element paths:
the first index of `x`, or `-1` when absent. -/
def jsIndexOf (l : List (List Nat)) (x : List Nat) : Int :=
  match findIdxFrom x 0 l with
  | some i => (i : Int)
  | none => -1

/-! ## The rendered DOM -/

/-- The computed-style properties the engine reads
(`window.getComputedStyle` resolved values; `""` embeds a falsy value). -/
structure ComputedStyle where
  color : String
  backgroundColor : String
  borderColor : String
  fontFamily : String
  fontWeight : String
  marginTop : String
  marginRight : String
  marginBottom : String
  marginLeft : String
  paddingTop : String
  paddingRight : String
  paddingBottom : String
  paddingLeft : String
  borderRadius : String
  boxShadow : String
  backgroundImage : String
  display : String
  position : String
  deriving DecidableEq, Repr

/-- A neutral computed style used when building concrete rendered documents. -/
def defaultComputed : ComputedStyle :=
  { color := "rgb(0, 0, 0)", backgroundColor := "rgba(0, 0, 0, 0)",
    borderColor := "rgb(0, 0, 0)", fontFamily := "serif", fontWeight := "400",
    marginTop := "0px", marginRight := "0px", marginBottom := "0px", marginLeft := "0px",
    paddingTop := "0px", paddingRight := "0px", paddingBottom := "0px", paddingLeft := "0px",
    borderRadius := "0px", boxShadow := "none", backgroundImage := "none",
    display := "block", position := "static" }

/-- `getBoundingClientRect()` of a rendered element. -/
structure Rect where
  x : Int
  y : Int
  width : Int
  height : Int
  top : Int
  right : Int
  bottom : Int
  left : Int
  deriving DecidableEq, Repr

def defaultRect : Rect :=
  { x := 0, y := 0, width := 0, height := 0, top := 0, right := 0, bottom := 0, left := 0 }

mutual
/-- One rendered DOM element: tag name, `id`/`class` attributes, the full
attribute map, resolved computed style, layout rectangle, the
browser-computed `textContent` of its subtree, and its child elements. -/
inductive DomNode : Type where
  | mk (tag idAttr className : String) (attrs : List (String × String))
       (computed : ComputedStyle) (rect : Rect) (textContent : String)
       (children : DomForest)
/-- A sequence of sibling DOM elements. -/
inductive DomForest : Type where
  | nil : DomForest
  | cons : DomNode → DomForest → DomForest
end

def DomNode.tag : DomNode → String
  | .mk t _ _ _ _ _ _ _ => t

def DomNode.idAttr : DomNode → String
  | .mk _ i _ _ _ _ _ _ => i

def DomNode.className : DomNode → String
  | .mk _ _ c _ _ _ _ _ => c

def DomNode.attrs : DomNode → List (String × String)
  | .mk _ _ _ a _ _ _ _ => a

def DomNode.computed : DomNode → ComputedStyle
  | .mk _ _ _ _ c _ _ _ => c

def DomNode.rect : DomNode → Rect
  | .mk _ _ _ _ _ r _ _ => r

def DomNode.textContent : DomNode → String
  | .mk _ _ _ _ _ _ t _ => t

def DomNode.children : DomNode → DomForest
  | .mk _ _ _ _ _ _ _ cs => cs

def DomForest.length : DomForest → Nat
  | .nil => 0
  | .cons _ cs => cs.length + 1

def DomForest.toList : DomForest → List DomNode
  | .nil => []
  | .cons c cs => c :: cs.toList

/-- Helper for building concrete rendered documents. -/
def mkEl (tag idAttr className : String) (children : DomForest) : DomNode :=
  .mk tag idAttr className [] defaultComputed defaultRect "" children

mutual
/-- Preorder traversal of a subtree rooted at path `p`, pairing every element
with its unique tree path. `flattenFrom [] doc` is the embedding of
`document.querySelectorAll('*')` (document order). -/
def flattenFrom (p : List Nat) : DomNode → List (List Nat × DomNode)
  | .mk t i c a st r tx children =>
    (p, .mk t i c a st r tx children) :: flattenKids p 0 children
/-- Preorder traversal of the children of the node at `p`, the `i`-th child first. -/
def flattenKids (p : List Nat) (i : Nat) : DomForest → List (List Nat × DomNode)
  | .nil => []
  | .cons c cs => flattenFrom (p ++ [i]) c ++ flattenKids p (i + 1) cs
end

/-- All elements of the document in document order (`querySelectorAll('*')`). -/
def allNodes (doc : DomNode) : List (List Nat × DomNode) :=
  flattenFrom [] doc

def forestGet : DomForest → Nat → Option DomNode
  | .nil, _ => none
  | .cons c _, 0 => some c
  | .cons _ cs, n + 1 => forestGet cs n

/-- The node sitting at a tree path, if the path is valid. -/
def getNodeAt : DomNode → List Nat → Option DomNode
  | t, [] => some t
  | t, i :: is =>
    match forestGet t.children i with
    | some c => getNodeAt c is
    | none => none

/-! ## Selector evaluation (browser side)

The catalog and landmark lookups use four selector shapes: a plain tag
selector, an attribute-substring selector `[class*="X"]`, an exact attribute
selector `[role="X"]`, and the descendant selector `nav li`. The following
models `document.querySelectorAll` for exactly those shapes; all of them are
valid CSS, so evaluation never throws for them. -/

/-- The quoted argument of `[class*="X"]` / `[role="X"]` (drop the prefix of
length `k` and the closing `"]`). -/
def selArg (k : Nat) (sel : String) : String :=
  String.mk ((sel.data.drop k).dropLast.dropLast)

/-- The element's `role` attribute, if present. -/
def roleAttr (n : DomNode) : Option String :=
  (n.attrs.find? (fun kv => kv.1 == "role")).map Prod.snd

/-- Whether the element at path `q` in `doc` matches the selector. -/
def matchesSel (doc : DomNode) (sel : String) (q : List Nat) (n : DomNode) : Bool :=
  if "[class*=\"".data.isPrefixOf sel.data then
    isSubList (selArg 9 sel).data n.className.data
  else if "[role=\"".data.isPrefixOf sel.data then
    roleAttr n == some (selArg 7 sel)
  else if sel = "nav li" then
    n.tag == "li" &&
      (List.range q.length).any (fun k =>
        match getNodeAt doc (q.take k) with
        | some a => a.tag == "nav"
        | none => false)
  else n.tag == sel

/-- `document.querySelectorAll(sel)`: matching elements in document order. -/
def runQuery (doc : DomNode) (sel : String) : List DomNode :=
  ((allNodes doc).filter (fun pn => matchesSel doc sel pn.1 pn.2)).map Prod.snd

/-- `document.querySelector(sel)`: the first match in document order. -/
def querySelOne (doc : DomNode) (sel : String) : Option DomNode :=
  (runQuery doc sel).head?

/-- The selector-evaluation oracle a rendered document presents to the
Pattern Recognizer: every supported selector evaluates without throwing. -/
def queryDoc (doc : DomNode) : String → Option (List DomNode) :=
  fun sel => some (runQuery doc sel)

/-! ## Metadata collector (`collectMetadata`, source lines 78-108) -/

structure Viewport where
  width : Nat
  height : Nat
  deriving DecidableEq, Repr

/-- The metadata fields the specification's claims depend on; browser-supplied
fields with no bearing on any claim (user agent, title, description,
performance entries, DOM depth) are omitted from the embedding. -/
structure Metadata where
  url : String
  viewport : Viewport
  loadTime : Nat
  elementCount : Nat
  deriving DecidableEq, Repr

/-- `collectMetadata`: `elementCount` is `document.querySelectorAll('*').length`. -/
def collectMetadata (url : String) (vp : Viewport) (loadTime : Nat) (doc : DomNode) : Metadata :=
  { url := url, viewport := vp, loadTime := loadTime,
    elementCount := (allNodes doc).length }

/-! ## Style Token Collector (`collectDesignTokens`, source lines 127-193) -/

structure DesignTokens where
  colors : List String
  fonts : List String
  spacing : List String
  borderRadius : List String
  boxShadows : List String
  gradients : List String
  deriving DecidableEq, Repr

def emptyTokens : DesignTokens :=
  { colors := [], fonts := [], spacing := [], borderRadius := [], boxShadows := [], gradients := [] }

/-- A guarded `Set.add`: the shape of every token insertion in the source
(`if (cond) tokens.x.add(v)` and `cond && tokens.x.add(v)`). -/
def guardAdd (cond : Prop) [Decidable cond] (s : List String) (v : String) : List String :=
  if cond then addToSet s v else s

/-- The color additions for one element: `color`, `backgroundColor`,
`borderColor`, each added when truthy and not `rgba(0, 0, 0, 0)`. -/
def colorStep (s : List String) (c : ComputedStyle) : List String :=
  guardAdd (c.borderColor ≠ "" ∧ c.borderColor ≠ "rgba(0, 0, 0, 0)")
    (guardAdd (c.backgroundColor ≠ "" ∧ c.backgroundColor ≠ "rgba(0, 0, 0, 0)")
      (guardAdd (c.color ≠ "" ∧ c.color ≠ "rgba(0, 0, 0, 0)") s c.color)
      c.backgroundColor)
    c.borderColor

/-- The font addition for one element: the `fontFamily fontWeight` composite,
added when the family is truthy. -/
def fontStep (s : List String) (c : ComputedStyle) : List String :=
  guardAdd (c.fontFamily ≠ "") s (c.fontFamily ++ " " ++ c.fontWeight)

/-- One margin/padding component: added when truthy and not `0px`. -/
def spacingAdd (s : List String) (v : String) : List String :=
  guardAdd (v ≠ "" ∧ v ≠ "0px") s v

/-- The eight spacing sources of one element, in the source's order. -/
def spacingVals (c : ComputedStyle) : List String :=
  [c.marginTop, c.marginRight, c.marginBottom, c.marginLeft,
   c.paddingTop, c.paddingRight, c.paddingBottom, c.paddingLeft]

/-- The spacing additions for one element: the four margin components then the
four padding components. -/
def spacingStep (s : List String) (c : ComputedStyle) : List String :=
  (spacingVals c).foldl spacingAdd s

/-- Border radius: added when truthy and not `0px`. -/
def radiusStep (s : List String) (c : ComputedStyle) : List String :=
  guardAdd (c.borderRadius ≠ "" ∧ c.borderRadius ≠ "0px") s c.borderRadius

/-- Box shadow: added when truthy and not `none`. -/
def shadowStep (s : List String) (c : ComputedStyle) : List String :=
  guardAdd (c.boxShadow ≠ "" ∧ c.boxShadow ≠ "none") s c.boxShadow

/-- Background image: added to the gradient set only when truthy and its value
contains the substring `gradient`. -/
def gradientStep (s : List String) (c : ComputedStyle) : List String :=
  guardAdd (c.backgroundImage ≠ "" ∧ includesSub "gradient" c.backgroundImage = true)
    s c.backgroundImage

/-- The per-element body of the `elements.forEach` loop of `collectDesignTokens`. -/
def tokenStep (t : DesignTokens) (el : DomNode) : DesignTokens :=
  { colors := colorStep t.colors el.computed,
    fonts := fontStep t.fonts el.computed,
    spacing := spacingStep t.spacing el.computed,
    borderRadius := radiusStep t.borderRadius el.computed,
    boxShadows := shadowStep t.boxShadows el.computed,
    gradients := gradientStep t.gradients el.computed }

/-- `collectDesignTokens`: one pass over `querySelectorAll('*')`. -/
def collectDesignTokens (doc : DomNode) : DesignTokens :=
  ((allNodes doc).map Prod.snd).foldl tokenStep emptyTokens

/-! ## Selector generation and the Element Snapshot Collector
(`generateSelector` source lines 214-228, `collectElementData` lines 195-261) -/

/-- One step of the selector path: the lowercased tag name, plus a dot and the
dot-joined split class list when `className` is truthy. -/
def stepSel (el : DomNode) : String :=
  jsToLower el.tag ++
    (if el.className ≠ "" then
      "." ++ joinSep "." ((jsSplitSpace el.className).filter (fun c => c ≠ ""))
     else "")

/-- The `while` loop of `generateSelector`: walk the chain from the element up
to the root, `unshift`-ing each step. -/
def selLoop : List DomNode → List String → List String
  | [], acc => acc
  | el :: rest, acc => selLoop rest (stepSel el :: acc)

/-- `generateSelector`, applied to the chain `[element, parent, …, root]`
(`isBodyEl` embeds the `element === document.body` reference check). -/
def generateSelector (isBodyEl : Bool) (chain : List DomNode) : String :=
  match chain with
  | [] => ""
  | el :: _ =>
    if el.idAttr ≠ "" then "#" ++ el.idAttr
    else if isBodyEl then "body"
    else joinSep " > " (selLoop chain [])

/-- Modelled from the spec (for comparison with `generateSelector`, which is
translated from the source): the walk described by the claim, which
short-circuits at the first ancestor that has an id, producing that
ancestor's `#id` form as the final (outermost) step. -/
def specClaimedWalk : List DomNode → List String → List String
  | [], acc => acc
  | a :: rest, acc =>
    if a.idAttr ≠ "" then ("#" ++ a.idAttr) :: acc
    else specClaimedWalk rest (stepSel a :: acc)

/-- Modelled from the spec: the whole claimed selector algorithm — `#id` for an
element with an id, `body` for the body element, otherwise the ancestor walk
that short-circuits at the first ancestor with an id. -/
def specClaimedSelector (isBodyEl : Bool) (chain : List DomNode) : String :=
  match chain with
  | [] => ""
  | el :: _ =>
    if el.idAttr ≠ "" then "#" ++ el.idAttr
    else if isBodyEl then "body"
    else joinSep " > " (specClaimedWalk chain [])

structure ElementRecord where
  index : Nat
  tagName : String
  id : Option String
  classes : List String
  textContent : Option String
  geometry : Rect
  cssStyles : List (String × String)
  selector : String
  parentIndex : Option Int
  childCount : Nat
  attributes : List (String × String)
  deriving DecidableEq, Repr

/-- The `cssStyles` capture: the real code enumerates every property exposed by
the style engine; the embedding enumerates the modelled properties. -/
def styleEntries (c : ComputedStyle) : List (String × String) :=
  [("color", c.color), ("background-color", c.backgroundColor),
   ("border-color", c.borderColor), ("font-family", c.fontFamily),
   ("font-weight", c.fontWeight), ("margin-top", c.marginTop),
   ("margin-right", c.marginRight), ("margin-bottom", c.marginBottom),
   ("margin-left", c.marginLeft), ("padding-top", c.paddingTop),
   ("padding-right", c.paddingRight), ("padding-bottom", c.paddingBottom),
   ("padding-left", c.paddingLeft), ("border-radius", c.borderRadius),
   ("box-shadow", c.boxShadow), ("background-image", c.backgroundImage),
   ("display", c.display), ("position", c.position)]

/-- `document.body`: the path of the first `body`-tagged element in document
order (reference identity embedded as path identity). -/
def bodyPath (doc : DomNode) : Option (List Nat) :=
  ((allNodes doc).find? (fun pn => pn.2.tag == "body")).map Prod.fst

/-- The chain `[element, parent, …, root]` for the element at path `q`. -/
def ancestorChain (doc : DomNode) (q : List Nat) : List DomNode :=
  (((List.range (q.length + 1)).map (fun k => getNodeAt doc (q.take k))).reverse).reduceOption

/-- The record built for the element at position `ipn.1` of the snapshot, at
path `ipn.2.1`; `paths` is the snapshot's path list, against which
`parentIndex` re-locates the parent with `Array.prototype.indexOf`
(an element with no parent element — the document element — gets `null`). -/
def elementRecordOf (doc : DomNode) (paths : List (List Nat))
    (ipn : Nat × (List Nat × DomNode)) : ElementRecord :=
  { index := ipn.1,
    tagName := jsToLower ipn.2.2.tag,
    id := if ipn.2.2.idAttr ≠ "" then some ipn.2.2.idAttr else none,
    classes := if ipn.2.2.className ≠ "" then
        (jsSplitSpace ipn.2.2.className).filter (fun c => c ≠ "")
      else [],
    textContent := if ipn.2.2.textContent ≠ "" then
        some (jsTake 200 (jsTrim ipn.2.2.textContent))
      else none,
    geometry := ipn.2.2.rect,
    cssStyles := styleEntries ipn.2.2.computed,
    selector := generateSelector (bodyPath doc == some ipn.2.1) (ancestorChain doc ipn.2.1),
    parentIndex := if ipn.2.1 = [] then none else some (jsIndexOf paths ipn.2.1.dropLast),
    childCount := ipn.2.2.children.length,
    attributes := ipn.2.2.attrs }

/-- `collectElementData`: one `ElementRecord` per element of
`querySelectorAll('*')`, in document order. -/
def collectElementData (doc : DomNode) : List ElementRecord :=
  (allNodes doc).enum.map (elementRecordOf doc ((allNodes doc).map Prod.fst))

/-! ## Layout Landmark Analyzer (`collectLayoutStructure`, source lines 263-312) -/

/-- A JavaScript value stored in the section-info object. -/
inductive JsVal : Type where
  | b : Bool → JsVal
  | s : String → JsVal
  | dims : Int → Int → JsVal
  | point : Int → Int → JsVal
  deriving DecidableEq, Repr

/-- JS object-literal / property-assignment semantics: a duplicate key keeps
its first position but takes the last assigned value. -/
def jsObjInsert (obj : List (String × JsVal)) (k : String) (v : JsVal) :
    List (String × JsVal) :=
  if obj.any (fun kv => kv.1 == k) then
    obj.map (fun kv => if kv.1 == k then (k, v) else kv)
  else obj ++ [(k, v)]

/-- The per-landmark record built by `collectLayoutStructure`: the object
literal writes `exists`, `dimensions`, `position` (the geometric point),
`display`, and then `position` again (the computed CSS position string) —
the duplicate key, reproduced faithfully. -/
def sectionEntry : Option DomNode → List (String × JsVal)
  | some el =>
    jsObjInsert
      (jsObjInsert
        (jsObjInsert
          (jsObjInsert
            (jsObjInsert [] "exists" (.b true))
            "dimensions" (.dims el.rect.width el.rect.height))
          "position" (.point el.rect.x el.rect.y))
        "display" (.s el.computed.display))
      "position" (.s el.computed.position)
  | none => jsObjInsert [] "exists" (.b false)

/-- Landmark resolution: tag selector first, ARIA-role selector as fallback
(JS `querySelector(tag) || querySelector(role)`). -/
def sectionLookup (doc : DomNode) (tagSel roleSel : String) : Option DomNode :=
  match querySelOne doc tagSel with
  | some el => some el
  | none => querySelOne doc roleSel

/-- The five landmark entries, in the source's key order. -/
def sectionInfo (doc : DomNode) : List (String × List (String × JsVal)) :=
  [("header", sectionEntry (sectionLookup doc "header" "[role=\"banner\"]")),
   ("nav", sectionEntry (sectionLookup doc "nav" "[role=\"navigation\"]")),
   ("main", sectionEntry (sectionLookup doc "main" "[role=\"main\"]")),
   ("aside", sectionEntry (sectionLookup doc "aside" "[role=\"complementary\"]")),
   ("footer", sectionEntry (sectionLookup doc "footer" "[role=\"contentinfo\"]"))]

/-- Page-level quantities read from the browser environment rather than from
element records (scroll extents and the window height). -/
structure PageEnv where
  bodyScrollHeight : Int
  bodyScrollWidth : Int
  htmlScrollHeight : Int
  htmlScrollWidth : Int
  innerHeight : Int
  deriving DecidableEq, Repr

/-- The element's `style` attribute (the empty string when absent). -/
def styleAttrOf (n : DomNode) : String :=
  match (n.attrs.find? (fun kv => kv.1 == "style")).map Prod.snd with
  | some v => v
  | none => ""

structure LayoutInfo where
  pageHeight : Int
  pageWidth : Int
  sections : List (String × List (String × JsVal))
  gridCount : Nat
  flexCount : Nat
  scrollable : Bool
  deriving DecidableEq, Repr

/-- `collectLayoutStructure`: landmark entries, the substring-heuristic
grid/flex counters, and the page-level scroll signals. -/
def collectLayoutStructure (doc : DomNode) (env : PageEnv) : LayoutInfo :=
  { pageHeight := max env.bodyScrollHeight env.htmlScrollHeight,
    pageWidth := max env.bodyScrollWidth env.htmlScrollWidth,
    sections := sectionInfo doc,
    gridCount := ((allNodes doc).filter (fun pn =>
      includesSub "grid" (styleAttrOf pn.2) || includesSub "grid" pn.2.className)).length,
    flexCount := ((allNodes doc).filter (fun pn =>
      includesSub "flex" (styleAttrOf pn.2) || includesSub "flex" pn.2.className)).length,
    scrollable := env.bodyScrollHeight > env.innerHeight }

/-! ## Pattern Recognizer (`identifyComponentPatterns`, source lines 367-422) -/

/-- The fixed catalog of component selectors, in source order. -/
def catalogSelectors : List String :=
  ["button", "[class*=\"button\"]", "[class*=\"btn\"]",
   "card", "[class*=\"card\"]",
   "[class*=\"nav\"]", "nav li",
   "[class*=\"modal\"]", "[class*=\"dialog\"]",
   "[class*=\"form\"]", "form",
   "[class*=\"header\"]", "[class*=\"footer\"]",
   "[class*=\"item\"]", "[class*=\"component\"]"]

/-- Remove every occurrence of the characters `[ ] " * =`
(JS `replace(/[\[\]"*=]/g, '')`). -/
def stripSelChars (s : String) : String :=
  String.mk (s.data.filter (fun c =>
    c ≠ '[' && c ≠ ']' && c ≠ '"' && c ≠ '*' && c ≠ '='))

/-- Remove the first occurrence of `pat` (JS `replace(/pat/, '')` for a
literal pattern). -/
def dropFirstSub (pat : List Char) : List Char → List Char
  | [] => []
  | c :: cs =>
    if pat.isPrefixOf (c :: cs) then (c :: cs).drop pat.length
    else c :: dropFirstSub pat cs

/-- The pattern name: strip `[ ] " * =` then delete the first `class`. -/
def sanitizeName (sel : String) : String :=
  String.mk (dropFirstSub "class".data (stripSelChars sel).data)

structure Dims where
  width : Int
  height : Int
  deriving DecidableEq, Repr

structure PatternVariation where
  index : Nat
  classes : List String
  dimensions : Dims
  textContent : Option String
  backgroundColor : String
  color : String
  deriving DecidableEq, Repr

/-- One variation snapshot per matched element (`className.split(' ')` here is
not filtered, unlike the element records). -/
def mkVariation (i : Nat) (el : DomNode) : PatternVariation :=
  { index := i,
    classes := if el.className ≠ "" then jsSplitSpace el.className else [],
    dimensions := { width := el.rect.width, height := el.rect.height },
    textContent := if el.textContent ≠ "" then some (jsTake 50 (jsTrim el.textContent)) else none,
    backgroundColor := el.computed.backgroundColor,
    color := el.computed.color }

structure PatternData where
  selector : String
  count : Nat
  variations : List PatternVariation
  deriving DecidableEq, Repr

structure ComponentPattern where
  name : String
  selector : String
  count : Nat
  variations : List PatternVariation
  deriving DecidableEq, Repr

/-- JS `Map.prototype.set`: replace the value in place when the key exists,
append otherwise. -/
def mapSet (m : List (String × PatternData)) (k : String) (v : PatternData) :
    List (String × PatternData) :=
  if m.any (fun kv => kv.1 == k) then
    m.map (fun kv => if kv.1 == k then (k, v) else kv)
  else m ++ [(k, v)]

/-- The `PatternData` recorded for a selector whose query returned `els`. -/
def mkPatternData (sel : String) (els : List DomNode) : PatternData :=
  { selector := sel, count := els.length,
    variations := els.enum.map (fun ie => mkVariation ie.1 ie.2) }

/-- The body of the catalog loop: a throwing selector (`query sel = none`) is
skipped by the `catch`; a selector with more than one match stores its
pattern under the sanitized name. -/
def patternStep (query : String → Option (List DomNode))
    (m : List (String × PatternData)) (sel : String) : List (String × PatternData) :=
  match query sel with
  | none => m
  | some els =>
    if 1 < els.length then mapSet m (sanitizeName sel) (mkPatternData sel els)
    else m

/-- The Pattern Recognizer over an arbitrary catalog: fold the catalog into the
name-keyed map, then read the map's entries out in insertion order. -/
def identifyPatternsFrom (catalog : List String)
    (query : String → Option (List DomNode)) : List ComponentPattern :=
  (catalog.foldl (patternStep query) []).map (fun kv =>
    { name := kv.1, selector := kv.2.selector, count := kv.2.count,
      variations := kv.2.variations })

/-- `identifyComponentPatterns`: the fold over the fixed catalog. -/
def identifyComponentPatterns (query : String → Option (List DomNode)) :
    List ComponentPattern :=
  identifyPatternsFrom catalogSelectors query

/-- The number of elements a selector matches (`0` for a throwing selector). -/
def matchCount (query : String → Option (List DomNode)) (sel : String) : Nat :=
  match query sel with
  | none => 0
  | some els => els.length

/-! ## Result assembly, Render Session and orchestration
(`analyzePage` source lines 42-76, `analyzeResponsive` lines 424-448,
`main` lines 486-512) -/

structure AnalysisData where
  metadata : Metadata
  designTokens : DesignTokens
  layout : LayoutInfo
  elements : List ElementRecord
  componentPatterns : List ComponentPattern
  deriving DecidableEq, Repr

/-- The per-viewport collector pipeline run on a successfully rendered page. -/
def assembleAnalysis (url : String) (vp : Viewport) (loadTime : Nat)
    (doc : DomNode) (env : PageEnv) : AnalysisData :=
  { metadata := collectMetadata url vp loadTime doc,
    designTokens := collectDesignTokens doc,
    layout := collectLayoutStructure doc env,
    elements := collectElementData doc,
    componentPatterns := identifyComponentPatterns (queryDoc doc) }

/-- What navigation hands back on success: the rendered document, the page
environment, and the elapsed load time. -/
structure RenderResult where
  doc : DomNode
  env : PageEnv
  loadTime : Nat

/-- The outcome of one `analyzePage` call: the propagated result and whether
the browsing context was closed. -/
structure RunOutcome where
  result : Except String AnalysisData
  contextClosed : Bool

/-- `analyzePage`: on navigation failure the error is rethrown by the `catch`;
the `finally` closes the context on both paths. -/
def analyzePage (url : String) (vp : Viewport)
    (nav : Except String RenderResult) : RunOutcome :=
  match nav with
  | .error e => { result := .error e, contextClosed := true }
  | .ok r => { result := .ok (assembleAnalysis url vp r.loadTime r.doc r.env),
               contextClosed := true }

/-- The reduced per-viewport view stored in the `responsive` map: the viewport
spec, the element count, the layout info and the design tokens only. -/
structure ResponsiveEntry where
  viewport : Viewport
  elementCount : Nat
  layoutStructure : LayoutInfo
  designTokens : DesignTokens
  deriving DecidableEq, Repr

/-- The default responsive viewports, in source order. -/
def defaultViewports : List (String × Viewport) :=
  [("mobile", ⟨375, 667⟩), ("tablet", ⟨768, 1024⟩), ("desktop", ⟨1920, 1080⟩)]

/-- The reduction applied per viewport when populating the `responsive` map. -/
def reduceView (vp : Viewport) (d : AnalysisData) : ResponsiveEntry :=
  { viewport := vp, elementCount := d.elements.length,
    layoutStructure := d.layout, designTokens := d.designTokens }

/-- `analyzeResponsive` (all three navigations succeeding): run the analysis
per viewport and assign the reduced view under the viewport's name
(`runPage vp` is the analysis data `analyzePage` leaves in the accumulator
after the pass at `vp`). -/
def analyzeResponsive (runPage : Viewport → AnalysisData) :
    List (String × ResponsiveEntry) :=
  defaultViewports.foldl (fun acc nv =>
    jsAssign acc nv.1 (reduceView nv.2 (runPage nv.2))) []
where
  /-- JS object property assignment (same duplicate-key semantics as object
  literals). -/
  jsAssign (obj : List (String × ResponsiveEntry)) (k : String) (v : ResponsiveEntry) :
      List (String × ResponsiveEntry) :=
    if obj.any (fun kv => kv.1 == k) then
      obj.map (fun kv => if kv.1 == k then (k, v) else kv)
    else obj ++ [(k, v)]

/-- The desktop viewport of the primary pass in `main`. -/
def vpDesktop : Viewport := ⟨1920, 1080⟩

/-- The navigations `main` performs, in order: the primary desktop pass, then
the three responsive passes. -/
def mainViewports : List Viewport :=
  [vpDesktop, ⟨375, 667⟩, ⟨768, 1024⟩, ⟨1920, 1080⟩]

/-- One sequential page run of `main`: skipped when an earlier run already
threw (that error is in flight to the top-level `catch`); otherwise the next
`analyzePage` call happens and its context-closed flag is recorded. -/
def mainStep (url : String) (nav : Viewport → Except String RenderResult)
    (acc : Except String Unit × Bool) (vp : Viewport) : Except String Unit × Bool :=
  match acc.1 with
  | .error _ => acc
  | .ok _ =>
    let r := analyzePage url vp (nav vp)
    (r.result.map (fun _ => ()), acc.2 && r.contextClosed)

/-- The sequential page runs of `main`: stop at the first failing navigation
(its error propagates out of `analyzePage`/`analyzeResponsive`), and record
whether every opened context was closed. -/
def runAllPages (url : String) (nav : Viewport → Except String RenderResult) :
    Except String Unit × Bool :=
  mainViewports.foldl (mainStep url nav) (.ok (), true)

/-- The observable outcome of `main`: the process exit code, whether
`saveResults` wrote an output document, and whether every opened browsing
context was closed. -/
structure MainOutcome where
  exitCode : Nat
  outputWritten : Bool
  contextsClosed : Bool
  deriving DecidableEq, Repr

/-- `main`: any error thrown by a page run reaches the top-level `catch`,
which exits with code 1 before `saveResults` is ever called. -/
def mainRun (url : String) (nav : Viewport → Except String RenderResult) :
    MainOutcome :=
  match runAllPages url nav with
  | (.error _, closed) => { exitCode := 1, outputWritten := false, contextsClosed := closed }
  | (.ok _, closed) => { exitCode := 0, outputWritten := true, contextsClosed := closed }

/-! ## Concrete rendered documents for the end-to-end scenarios -/

/-- Scenario A: a static page with exactly one `<button class="btn">` and one
`<button class="btn secondary">`. -/
def scenarioADoc : DomNode :=
  mkEl "html" "" ""
    (.cons (mkEl "head" "" "" .nil)
      (.cons (mkEl "body" "" ""
        (.cons (mkEl "button" "" "btn" .nil)
          (.cons (mkEl "button" "" "btn secondary" .nil) .nil)))
        .nil))

/-- A page with two `<button class="button">` elements: both the `button` and
the `[class*="button"]` catalog entries match it twice, and both sanitize to
the name `button`. -/
def twoButtonDoc : DomNode :=
  mkEl "html" "" ""
    (.cons (mkEl "head" "" "" .nil)
      (.cons (mkEl "body" "" ""
        (.cons (mkEl "button" "" "button" .nil)
          (.cons (mkEl "button" "" "button" .nil) .nil)))
        .nil))

/-! ## Generic lemmas about the embedded JS collection semantics -/

theorem mem_addToSet_iff (s : List String) (w v : String) :
    v ∈ addToSet s w ↔ v ∈ s ∨ v = w := by
  unfold addToSet
  split
  · constructor
    · exact Or.inl
    · rintro (h | rfl) <;> assumption
  · simp [List.mem_append]

theorem nodup_addToSet (s : List String) (w : String) (h : s.Nodup) :
    (addToSet s w).Nodup := by
  unfold addToSet
  split
  · exact h
  · simpa [List.nodup_append] using ⟨h, by assumption⟩

theorem mem_guardAdd_iff (cond : Prop) [Decidable cond] (s : List String) (w v : String) :
    v ∈ guardAdd cond s w ↔ v ∈ s ∨ (cond ∧ v = w) := by
  unfold guardAdd
  split
  · rw [mem_addToSet_iff]
    constructor
    · rintro (h | rfl)
      · exact Or.inl h
      · exact Or.inr ⟨by assumption, rfl⟩
    · rintro (h | ⟨_, rfl⟩)
      · exact Or.inl h
      · exact Or.inr rfl
  · constructor
    · exact Or.inl
    · rintro (h | ⟨hc, _⟩)
      · exact h
      · exact absurd hc (by assumption)

theorem mem_guardAdd_of_mem (cond : Prop) [Decidable cond] (s : List String)
    (w v : String) (h : v ∈ s) : v ∈ guardAdd cond s w :=
  (mem_guardAdd_iff cond s w v).mpr (Or.inl h)

theorem mem_guardAdd_self (cond : Prop) [Decidable cond] (s : List String)
    (w : String) (h : cond) : w ∈ guardAdd cond s w :=
  (mem_guardAdd_iff cond s w w).mpr (Or.inr ⟨h, rfl⟩)

theorem nodup_guardAdd (cond : Prop) [Decidable cond] (s : List String)
    (w : String) (h : s.Nodup) : (guardAdd cond s w).Nodup := by
  unfold guardAdd
  split
  · exact nodup_addToSet s w h
  · exact h

/-- A predicate preserved by every step of a fold holds of the fold's result. -/
theorem foldl_preserve {α β : Type} (g : β → α → β) (P : β → Prop)
    (hstep : ∀ b a, P b → P (g b a)) :
    ∀ (l : List α) (b : β), P b → P (l.foldl g b)
  | [], _, hb => hb
  | a :: l, b, hb => foldl_preserve g P hstep l (g b a) (hstep b a hb)

/-- A membership-monotone fold keeps every element inserted at any step. -/
theorem foldl_mem_of_step {α : Type} (g : List String → α → List String) (v : String)
    (hmono : ∀ s a, v ∈ s → v ∈ g s a) :
    ∀ (l : List α) (s : List String) (a : α), a ∈ l → (∀ s2, v ∈ g s2 a) →
      v ∈ l.foldl g s := by
  intro l
  induction l with
  | nil => intro s a ha _; cases ha
  | cons x xs ih =>
    intro s a ha hins
    rcases List.mem_cons.mp ha with rfl | hxs
    · exact foldl_preserve g (fun s2 => v ∈ s2) hmono xs (g s a) (hins s)
    · exact ih (g s x) a hxs hins

/-! ## The substring check gives textual containment -/

theorem isSubList_iff (pat : List Char) :
    ∀ l : List Char, isSubList pat l = true ↔ pat <:+: l := by
  intro l
  induction l with
  | nil =>
    simp only [isSubList, List.isEmpty_iff]
    constructor
    · rintro rfl; exact List.infix_rfl
    · intro h; simpa using h.length_le
  | cons c cs ih =>
    simp only [isSubList, Bool.or_eq_true]
    constructor
    · rintro (h | h)
      · exact (List.IsPrefix.isInfix (List.isPrefixOf_iff_prefix.mp h))
      · exact (ih.mp h).trans (List.infix_cons_iff.mpr (Or.inr List.infix_rfl))
    · intro h
      rcases List.infix_cons_iff.mp h with h | h
      · exact Or.inl (List.isPrefixOf_iff_prefix.mpr h)
      · exact Or.inr (ih.mpr h)

theorem includesSub_iff (pat s : String) :
    includesSub pat s = true ↔ pat.data <:+: s.data :=
  isSubList_iff pat.data s.data

/-- C3. For every rendered document, the length of the element-record sequence
equals `metadata.elementCount`, and both equal the number of nodes of the
universal-selector query over the same snapshot. -/
theorem claim3_element_counts (doc : DomNode) (url : String) (vp : Viewport) (lt : Nat) :
    (collectElementData doc).length = (collectMetadata url vp lt doc).elementCount ∧
    (collectMetadata url vp lt doc).elementCount = (allNodes doc).length := by
  constructor
  · simp [collectElementData, collectMetadata]
  · rfl

/-- C7. A catalog entry whose selector evaluation throws is skipped exactly:
the recognizer's output over a catalog containing the throwing entry equals
its output over the catalog with that entry removed, for any surrounding
entries and any document oracle. -/
theorem claim7_throwing_selector_skipped (query : String → Option (List DomNode))
    (pre post : List String) (s : String) (h : query s = none) :
    identifyPatternsFrom (pre ++ s :: post) query =
      identifyPatternsFrom (pre ++ post) query := by
  unfold identifyPatternsFrom
  rw [List.foldl_append, List.foldl_append, List.foldl_cons]
  have hstep : patternStep query (pre.foldl (patternStep query) []) s =
      pre.foldl (patternStep query) [] := by
    unfold patternStep
    rw [h]
  rw [hstep]

/-- A selector oracle on which every selector throws. -/
def qThrowAll : String → Option (List DomNode) := fun _ => none

theorem claim7_witness :
    identifyPatternsFrom (["button"] ++ "form" :: ["card"]) qThrowAll =
      identifyPatternsFrom (["button"] ++ ["card"]) qThrowAll :=
  claim7_throwing_selector_skipped qThrowAll ["button"] ["card"] "form" rfl

/-- C9. The responsive pass over the default three viewports produces the map
with exactly the keys `mobile`, `tablet`, `desktop` in order; each entry is
exactly the reduced view of that viewport's analysis (the viewport spec
echoed, the element count, the layout structure and the design tokens), so
two runs whose analyses agree on those reduced projections produce identical
responsive maps no matter how their full element, asset or pattern data
differ. -/
theorem claim9_responsive_map (runPage : Viewport → AnalysisData) :
    analyzeResponsive runPage =
      [("mobile", reduceView ⟨375, 667⟩ (runPage ⟨375, 667⟩)),
       ("tablet", reduceView ⟨768, 1024⟩ (runPage ⟨768, 1024⟩)),
       ("desktop", reduceView ⟨1920, 1080⟩ (runPage ⟨1920, 1080⟩))] ∧
    (analyzeResponsive runPage).map Prod.fst = ["mobile", "tablet", "desktop"] ∧
    (∀ (vp : Viewport) (d : AnalysisData), (reduceView vp d).viewport = vp) ∧
    (∀ f g : Viewport → AnalysisData,
      (∀ vp, (f vp).elements.length = (g vp).elements.length ∧
             (f vp).layout = (g vp).layout ∧
             (f vp).designTokens = (g vp).designTokens) →
      analyzeResponsive f = analyzeResponsive g) := by
  refine ⟨rfl, by rw [(rfl : analyzeResponsive runPage = analyzeResponsive runPage)]; rfl,
    fun vp d => rfl, ?_⟩
  intro f g h
  have he : ∀ vp, reduceView vp (f vp) = reduceView vp (g vp) := by
    intro vp
    rcases h vp with ⟨h1, h2, h3⟩
    unfold reduceView
    rw [h1, h2, h3]
  show analyzeResponsive f = analyzeResponsive g
  unfold analyzeResponsive
  simp only [defaultViewports, List.foldl_cons, List.foldl_nil]
  rw [he ⟨375, 667⟩, he ⟨768, 1024⟩, he ⟨1920, 1080⟩]

/-! ## C8: navigation failure handling -/

theorem analyzePage_contextClosed (url : String) (vp : Viewport)
    (nav : Except String RenderResult) :
    (analyzePage url vp nav).contextClosed = true := by
  cases nav <;> rfl

theorem analyzePage_propagates (url : String) (vp : Viewport)
    (nav : Except String RenderResult) (e : String) (h : nav = .error e) :
    (analyzePage url vp nav).result = .error e := by
  subst h; rfl

theorem mainStep_snd (url : String) (nav : Viewport → Except String RenderResult)
    (acc : Except String Unit × Bool) (vp : Viewport) :
    (mainStep url nav acc vp).2 = acc.2 := by
  rcases acc with ⟨res, closed⟩
  cases res with
  | error e => rfl
  | ok _ =>
    show (closed && (analyzePage url vp (nav vp)).contextClosed) = closed
    rw [analyzePage_contextClosed, Bool.and_true]

theorem foldl_mainStep_snd (url : String) (nav : Viewport → Except String RenderResult) :
    ∀ (l : List Viewport) (acc : Except String Unit × Bool),
      (l.foldl (mainStep url nav) acc).2 = acc.2 := by
  intro l
  induction l with
  | nil => intro acc; rfl
  | cons x xs ih =>
    intro acc
    rw [List.foldl_cons, ih, mainStep_snd]

theorem foldl_mainStep_error (url : String) (nav : Viewport → Except String RenderResult)
    (e : String) :
    ∀ (l : List Viewport) (acc : Except String Unit × Bool),
      acc.1 = .error e → l.foldl (mainStep url nav) acc = acc := by
  intro l
  induction l with
  | nil => intro acc _; rfl
  | cons x xs ih =>
    intro acc hacc
    rw [List.foldl_cons]
    have hstep : mainStep url nav acc x = acc := by
      rcases acc with ⟨res, closed⟩
      cases res with
      | error e2 => rfl
      | ok _ => simp at hacc
    rw [hstep]
    exact ih acc hacc

theorem foldl_mainStep_hits_error (url : String)
    (nav : Viewport → Except String RenderResult) (e : String) :
    ∀ (l : List Viewport) (acc : Except String Unit × Bool) (vp : Viewport),
      vp ∈ l → nav vp = .error e →
      ∃ e2, (l.foldl (mainStep url nav) acc).1 = .error e2 := by
  intro l
  induction l with
  | nil => intro acc vp hvp _; cases hvp
  | cons x xs ih =>
    intro acc vp hvp herr
    rcases List.mem_cons.mp hvp with rfl | hxs
    · rcases hacc : acc.1 with e2 | u
      · refine ⟨e2, ?_⟩
        rw [List.foldl_cons]
        have hstep : mainStep url nav acc vp = acc := by
          rcases acc with ⟨res, closed⟩
          cases res with
          | error e3 => rfl
          | ok _ => simp at hacc
        rw [hstep, foldl_mainStep_error url nav e2 xs acc hacc, hacc]
      · refine ⟨e, ?_⟩
        rw [List.foldl_cons]
        have hstep : (mainStep url nav acc vp).1 = .error e := by
          rcases acc with ⟨res, closed⟩
          cases res with
          | error e3 => simp at hacc
          | ok _ =>
            show (analyzePage url vp (nav vp)).result.map (fun _ => ()) = _
            rw [analyzePage_propagates url vp (nav vp) e herr]
            rfl
        rw [foldl_mainStep_error url nav e xs _ hstep]
        exact hstep
    · exact ih (mainStep url nav acc x) vp hxs herr

/-- C8. A failed navigation aborts the invocation: `analyzePage` rethrows the
navigation error, the browsing context is closed on the success and the
failure path alike (and so every context `main` opens is closed), and when
any of `main`'s page runs fails to navigate, no output document is written
and the process exits with code 1. -/
theorem claim8_navigation_failure (url : String)
    (nav : Viewport → Except String RenderResult) :
    (∀ vp, (analyzePage url vp (nav vp)).contextClosed = true) ∧
    (∀ vp e, nav vp = .error e → (analyzePage url vp (nav vp)).result = .error e) ∧
    (mainRun url nav).contextsClosed = true ∧
    (∀ vp e, vp ∈ mainViewports → nav vp = .error e →
      (mainRun url nav).outputWritten = false ∧ (mainRun url nav).exitCode = 1) := by
  refine ⟨fun vp => analyzePage_contextClosed url vp (nav vp),
    fun vp e h => analyzePage_propagates url vp (nav vp) e h, ?_, ?_⟩
  · unfold mainRun
    have h2 : (runAllPages url nav).2 = true :=
      foldl_mainStep_snd url nav mainViewports (.ok (), true)
    rcases hr : runAllPages url nav with ⟨res, closed⟩
    have : closed = true := by rw [hr] at h2; exact h2
    subst this
    cases res <;> rfl
  · intro vp e hvp herr
    obtain ⟨e2, he2⟩ :=
      foldl_mainStep_hits_error url nav e mainViewports (.ok (), true) vp hvp herr
    unfold mainRun
    rcases hr : runAllPages url nav with ⟨res, closed⟩
    have : res = .error e2 := by
      have : (runAllPages url nav).1 = .error e2 := he2
      rw [hr] at this; exact this
    subst this
    exact ⟨rfl, rfl⟩

/-- A navigation oracle for which every host is unreachable. -/
def navUnreachable : Viewport → Except String RenderResult :=
  fun _ => .error "net::ERR_NAME_NOT_RESOLVED"

theorem claim8_witness :
    (mainRun "http://unreachable.invalid/" navUnreachable).outputWritten = false ∧
    (mainRun "http://unreachable.invalid/" navUnreachable).exitCode = 1 :=
  (claim8_navigation_failure "http://unreachable.invalid/" navUnreachable).2.2.2
    vpDesktop "net::ERR_NAME_NOT_RESOLVED" (by decide) rfl

/-! ## C5: the landmark section record -/

/-- A concrete rendered header landmark: rect at (5, 7) sized 100 x 50,
computed `display: block` and `position: static`. -/
def headerRect : Rect :=
  { x := 5, y := 7, width := 100, height := 50, top := 7, right := 105, bottom := 57, left := 5 }

def headerEl : DomNode :=
  .mk "header" "" "" [] defaultComputed headerRect "" .nil

/-- C5 evaluation. At a concrete present landmark, the built section record has
the keys `exists`, `dimensions`, `position`, `display` only, its single
`position` entry holds the CSS position string (the duplicate object-literal
key overwrote the geometric point), and no geometric `(x, y)` value survives
anywhere in the record; an absent landmark yields exactly
`[(exists, false)]`. -/
theorem claim5_section_position_overwritten :
    sectionEntry (some headerEl) =
      [("exists", JsVal.b true), ("dimensions", JsVal.dims 100 50),
       ("position", JsVal.s "static"), ("display", JsVal.s "block")] ∧
    (sectionEntry (some headerEl)).filter
      (fun kv => match kv.2 with | JsVal.point _ _ => true | _ => false) = [] ∧
    sectionEntry none = [("exists", JsVal.b false)] := by
  decide

/-! ## C6: selector generation -/

theorem selLoop_append (l : List DomNode) :
    ∀ acc, selLoop l acc = (l.reverse.map stepSel) ++ acc := by
  induction l with
  | nil => intro acc; rfl
  | cons x xs ih =>
    intro acc
    simp only [selLoop]
    rw [ih (stepSel x :: acc)]
    simp [List.reverse_cons, List.map_append, List.append_assoc]

/-- The element of the C6 counterexample: a `span` with no id whose parent
`div` has the id `container`. -/
def cexSpan : DomNode := mkEl "span" "" "" .nil

def cexDivWithId : DomNode := mkEl "div" "container" "" .nil

def cexHtmlRoot : DomNode := mkEl "html" "" "" .nil

def cexChain : List DomNode := [cexSpan, cexDivWithId, cexHtmlRoot]

/-- C6 counterexample. On a chain whose first ancestor has an id, the source's
selector walk does NOT short-circuit at that ancestor: it produces the full
structural path, not the `#id` form the claim describes. -/
theorem claim6_counterexample :
    generateSelector false cexChain = "html > div > span" ∧
    specClaimedSelector false cexChain = "#container > span" ∧
    generateSelector false cexChain ≠ specClaimedSelector false cexChain := by
  decide

/-- C6 amended. The generated selector walks from the element to the document
root with each step the lowercased tag name plus the dot-joined class tokens,
steps joined in root-to-element order by ` > `; ancestor ids are ignored (no
short-circuit at ancestors). An element that itself has an id yields `#id`,
and the body element yields `body`. -/
theorem claim6_amended_selector_walk (isBodyEl : Bool) (chain : List DomNode) :
    generateSelector isBodyEl chain =
      match chain with
      | [] => ""
      | el :: _ =>
        if el.idAttr ≠ "" then "#" ++ el.idAttr
        else if isBodyEl then "body"
        else joinSep " > " (chain.reverse.map stepSel) := by
  cases chain with
  | nil => rfl
  | cons el rest =>
    simp only [generateSelector, selLoop_append, List.append_nil]

/-! ## The pattern map: keys and membership -/

def mapKeys (m : List (String × PatternData)) : List String :=
  m.map Prod.fst

theorem any_beq_key (m : List (String × PatternData)) (k : String) :
    m.any (fun kv => kv.1 == k) = true ↔ k ∈ mapKeys m := by
  simp [List.any_eq_true, mapKeys, List.mem_map]

theorem mapKeys_mapSet (m : List (String × PatternData)) (k : String) (v : PatternData) :
    mapKeys (mapSet m k v) = if k ∈ mapKeys m then mapKeys m else mapKeys m ++ [k] := by
  unfold mapSet
  by_cases h : k ∈ mapKeys m
  · rw [if_pos ((any_beq_key m k).mpr h), if_pos h]
    unfold mapKeys
    rw [List.map_map]
    apply List.map_congr_left
    intro kv _
    by_cases hk : kv.1 == k
    · have hk2 : kv.1 = k := by simpa using hk
      simp [Function.comp, hk, hk2]
    · simp [Function.comp, hk]
  · have hb : m.any (fun kv => kv.1 == k) = false := by
      rcases hc : m.any (fun kv => kv.1 == k) with _ | _
      · rfl
      · exact absurd ((any_beq_key m k).mp hc) h
    rw [if_neg (by rw [hb]; exact Bool.false_ne_true), if_neg h]
    unfold mapKeys
    rw [List.map_append]
    rfl

theorem nodup_mapKeys_mapSet (m : List (String × PatternData)) (k : String)
    (v : PatternData) (h : (mapKeys m).Nodup) : (mapKeys (mapSet m k v)).Nodup := by
  rw [mapKeys_mapSet]
  split
  · exact h
  · refine List.Nodup.append h (List.nodup_singleton k) ?_
    intro a ha hb
    rw [List.mem_singleton.mp hb] at ha
    exact absurd ha (by assumption)

theorem nodup_keys_patternStep (query : String → Option (List DomNode))
    (m : List (String × PatternData)) (sel : String)
    (h : (mapKeys m).Nodup) : (mapKeys (patternStep query m sel)).Nodup := by
  rcases hq : query sel with _ | els
  · simp only [patternStep, hq]
    exact h
  · simp only [patternStep, hq]
    split
    · exact nodup_mapKeys_mapSet _ _ _ h
    · exact h

theorem mem_mapSet (m : List (String × PatternData)) (k : String) (v : PatternData)
    (kv : String × PatternData) (h : kv ∈ mapSet m k v) : kv ∈ m ∨ kv = (k, v) := by
  unfold mapSet at h
  split at h
  · rcases List.mem_map.mp h with ⟨kv0, hkv0, heq⟩
    by_cases hk : kv0.1 == k
    · right; rw [← heq]; simp [hk]
    · left; rw [← heq]; simp only [hk]; simpa using hkv0
  · rcases List.mem_append.mp h with h2 | h2
    · exact Or.inl h2
    · right; simpa using h2

theorem mem_patternStep (query : String → Option (List DomNode))
    (m : List (String × PatternData)) (sel : String) (kv : String × PatternData)
    (h : kv ∈ patternStep query m sel) :
    kv ∈ m ∨ ∃ els, query sel = some els ∧ 1 < els.length ∧
      kv = (sanitizeName sel, mkPatternData sel els) := by
  rcases hq : query sel with _ | els
  · simp only [patternStep, hq] at h
    exact Or.inl h
  · simp only [patternStep, hq] at h
    split at h
    · rcases mem_mapSet _ _ _ _ h with h2 | h2
      · exact Or.inl h2
      · exact Or.inr ⟨els, rfl, by assumption, h2⟩
    · exact Or.inl h

theorem mem_foldl_patternStep (query : String → Option (List DomNode)) :
    ∀ (l : List String) (m : List (String × PatternData)) (kv : String × PatternData),
      kv ∈ l.foldl (patternStep query) m →
      kv ∈ m ∨ ∃ sel, sel ∈ l ∧ ∃ els, query sel = some els ∧ 1 < els.length ∧
        kv = (sanitizeName sel, mkPatternData sel els) := by
  intro l
  induction l with
  | nil => intro m kv h; exact Or.inl h
  | cons x xs ih =>
    intro m kv h
    rw [List.foldl_cons] at h
    rcases ih _ kv h with h2 | ⟨sel, hsel, rest⟩
    · rcases mem_patternStep _ _ _ _ h2 with h3 | ⟨els, h4⟩
      · exact Or.inl h3
      · exact Or.inr ⟨x, List.mem_cons_self x xs, els, h4⟩
    · exact Or.inr ⟨sel, List.mem_cons_of_mem x hsel, rest⟩

theorem mem_keys_mapSet_self (m : List (String × PatternData)) (k : String)
    (v : PatternData) : k ∈ mapKeys (mapSet m k v) := by
  rw [mapKeys_mapSet]
  split
  · assumption
  · exact List.mem_append_right _ (by simp)

theorem keys_mono_patternStep (query : String → Option (List DomNode))
    (m : List (String × PatternData)) (sel k : String)
    (h : k ∈ mapKeys m) : k ∈ mapKeys (patternStep query m sel) := by
  rcases hq : query sel with _ | els
  · simp only [patternStep, hq]
    exact h
  · simp only [patternStep, hq]
    split
    · rw [mapKeys_mapSet]
      split
      · exact h
      · exact List.mem_append_left _ h
    · exact h

/-- C10. Pattern names in the output are unique (the accumulator is a map
keyed by the sanitized name); `button` and `[class*="button"]`, and
`[class*="form"]` and `form`, sanitize to the same name; on a page where two
same-named catalog entries both match twice, only the later entry's selector,
count and variations appear under the shared name. -/
theorem claim10_pattern_names_unique :
    (∀ query, ((identifyComponentPatterns query).map (fun pat => pat.name)).Nodup) ∧
    sanitizeName "button" = "button" ∧
    sanitizeName "[class*=\"button\"]" = "button" ∧
    sanitizeName "[class*=\"form\"]" = "form" ∧
    sanitizeName "form" = "form" ∧
    (identifyComponentPatterns (queryDoc twoButtonDoc)).map
      (fun pat => (pat.name, pat.selector, pat.count, pat.variations.length)) =
      [("button", "[class*=\"button\"]", 2, 2)] := by
  refine ⟨?_, by decide, by decide, by decide, by decide, by decide⟩
  intro query
  unfold identifyComponentPatterns identifyPatternsFrom
  rw [List.map_map]
  exact foldl_preserve (patternStep query) (fun m => (mapKeys m).Nodup)
    (fun m sel hm => nodup_keys_patternStep query m sel hm) catalogSelectors []
    (by simp [mapKeys])

/-- C1 counterexample. On a page with two `<button class="button">` elements,
the catalog selector `button` matches more than one element, yet no pattern
with that selector is emitted: the later catalog entry `[class*="button"]`
overwrote the map slot for the shared sanitized name. So "a pattern is
emitted for a catalog selector if and only if it matches more than one
element" fails in the if direction. -/
theorem claim1_counterexample :
    "button" ∈ catalogSelectors ∧
    1 < matchCount (queryDoc twoButtonDoc) "button" ∧
    (identifyComponentPatterns (queryDoc twoButtonDoc)).filter
      (fun pat => pat.selector == "button") = [] := by
  decide

/-- C1 amended. Every emitted pattern comes from a catalog selector that
matched strictly more than one element, and carries that selector, the match
count, and exactly one variation per matched element, under the sanitized
name; conversely a catalog selector matching more than one element always
leaves a pattern under its sanitized name (though a later same-named catalog
entry may have replaced the recorded selector/count/variations); scenario A
(one `<button class="btn">` and one `<button class="btn secondary">`)
produces the `button` pattern with count 2 and two variations, and the `btn`
pattern with count 2 and two variations. -/
theorem claim1_amended_pattern_emission :
    (∀ query pat, pat ∈ identifyComponentPatterns query →
      pat.selector ∈ catalogSelectors ∧ pat.name = sanitizeName pat.selector ∧
      ∃ els, query pat.selector = some els ∧ 1 < els.length ∧
        pat.count = els.length ∧ pat.variations.length = els.length) ∧
    (∀ query sel, sel ∈ catalogSelectors → 1 < matchCount query sel →
      ∃ pat, pat ∈ identifyComponentPatterns query ∧ pat.name = sanitizeName sel) ∧
    (identifyComponentPatterns (queryDoc scenarioADoc)).map
      (fun pat => (pat.name, pat.selector, pat.count, pat.variations.length)) =
      [("button", "button", 2, 2), ("btn", "[class*=\"btn\"]", 2, 2)] := by
  refine ⟨?_, ?_, by decide⟩
  · intro query pat hpat
    unfold identifyComponentPatterns identifyPatternsFrom at hpat
    rcases List.mem_map.mp hpat with ⟨kv, hkv, heq⟩
    rcases mem_foldl_patternStep query catalogSelectors [] kv hkv with h | h
    · cases h
    · rcases h with ⟨sel, hsel, els, hq, hlen, hkveq⟩
      subst hkveq
      rw [← heq]
      refine ⟨by simpa [mkPatternData] using hsel, by simp [mkPatternData], els,
        by simpa [mkPatternData] using hq, hlen, by simp [mkPatternData],
        by simp [mkPatternData, List.enum_length]⟩
  · intro query sel hsel hcount
    rcases hq : query sel with _ | els
    · exfalso
      unfold matchCount at hcount
      rw [hq] at hcount
      exact Nat.not_lt_zero 1 hcount
    · have hlen : 1 < els.length := by
        unfold matchCount at hcount
        rw [hq] at hcount
        exact hcount
      rcases List.append_of_mem hsel with ⟨l1, l2, hcat⟩
      have hkey : sanitizeName sel ∈
          mapKeys (catalogSelectors.foldl (patternStep query) []) := by
        rw [hcat, List.foldl_append, List.foldl_cons]
        have hstep : sanitizeName sel ∈
            mapKeys (patternStep query (l1.foldl (patternStep query) []) sel) := by
          simp only [patternStep, hq, if_pos hlen]
          exact mem_keys_mapSet_self _ _ _
        exact foldl_preserve (patternStep query) (fun m => sanitizeName sel ∈ mapKeys m)
          (fun m s hm => keys_mono_patternStep query m s _ hm) l2 _ hstep
      rcases List.mem_map.mp hkey with ⟨kv, hkv, hfst⟩
      refine ⟨⟨kv.1, kv.2.selector, kv.2.count, kv.2.variations⟩, ?_, by simpa using hfst⟩
      unfold identifyComponentPatterns identifyPatternsFrom
      exact List.mem_map.mpr ⟨kv, hkv, rfl⟩

theorem claim1_amended_witness :
    ∃ pat, pat ∈ identifyComponentPatterns (queryDoc scenarioADoc) ∧
      pat.name = sanitizeName "[class*=\"btn\"]" :=
  claim1_amended_pattern_emission.2.1 (queryDoc scenarioADoc) "[class*=\"btn\"]"
    (by decide) (by decide)

/-! ## C2: design-token set properties -/

theorem not_mem_guardAdd (cond : Prop) [Decidable cond] (s : List String) (w v : String)
    (hv : v ∉ s) (hw : cond → w ≠ v) : v ∉ guardAdd cond s w := by
  intro h
  rcases (mem_guardAdd_iff cond s w v).mp h with h2 | ⟨hc, rfl⟩
  · exact hv h2
  · exact hw hc rfl

theorem nodup_colorStep (s : List String) (c : ComputedStyle) (h : s.Nodup) :
    (colorStep s c).Nodup := by
  unfold colorStep
  exact nodup_guardAdd _ _ _ (nodup_guardAdd _ _ _ (nodup_guardAdd _ _ _ h))

theorem mem_colorStep_of_mem (s : List String) (c : ComputedStyle) (v : String)
    (h : v ∈ s) : v ∈ colorStep s c := by
  unfold colorStep
  exact mem_guardAdd_of_mem _ _ _ _ (mem_guardAdd_of_mem _ _ _ _ (mem_guardAdd_of_mem _ _ _ _ h))

theorem rgba_not_mem_colorStep (s : List String) (c : ComputedStyle)
    (h : "rgba(0, 0, 0, 0)" ∉ s) : "rgba(0, 0, 0, 0)" ∉ colorStep s c := by
  unfold colorStep
  exact not_mem_guardAdd _ _ _ _
    (not_mem_guardAdd _ _ _ _ (not_mem_guardAdd _ _ _ _ h (fun hc => hc.2)) (fun hc => hc.2))
    (fun hc => hc.2)

theorem mem_colorStep_color (s : List String) (c : ComputedStyle)
    (h1 : c.color ≠ "") (h2 : c.color ≠ "rgba(0, 0, 0, 0)") : c.color ∈ colorStep s c := by
  unfold colorStep
  exact mem_guardAdd_of_mem _ _ _ _ (mem_guardAdd_of_mem _ _ _ _ (mem_guardAdd_self _ _ _ ⟨h1, h2⟩))

theorem mem_colorStep_background (s : List String) (c : ComputedStyle)
    (h1 : c.backgroundColor ≠ "") (h2 : c.backgroundColor ≠ "rgba(0, 0, 0, 0)") :
    c.backgroundColor ∈ colorStep s c := by
  unfold colorStep
  exact mem_guardAdd_of_mem _ _ _ _ (mem_guardAdd_self _ _ _ ⟨h1, h2⟩)

theorem mem_colorStep_border (s : List String) (c : ComputedStyle)
    (h1 : c.borderColor ≠ "") (h2 : c.borderColor ≠ "rgba(0, 0, 0, 0)") :
    c.borderColor ∈ colorStep s c := by
  unfold colorStep
  exact mem_guardAdd_self _ _ _ ⟨h1, h2⟩

theorem nodup_fontStep (s : List String) (c : ComputedStyle) (h : s.Nodup) :
    (fontStep s c).Nodup := nodup_guardAdd _ _ _ h

theorem mem_fontStep_of_mem (s : List String) (c : ComputedStyle) (v : String)
    (h : v ∈ s) : v ∈ fontStep s c := mem_guardAdd_of_mem _ _ _ _ h

theorem mem_fontStep_self (s : List String) (c : ComputedStyle)
    (h : c.fontFamily ≠ "") : c.fontFamily ++ " " ++ c.fontWeight ∈ fontStep s c :=
  mem_guardAdd_self _ _ _ h

theorem nodup_spacingAdd (s : List String) (v : String) (h : s.Nodup) :
    (spacingAdd s v).Nodup := nodup_guardAdd _ _ _ h

theorem mem_spacingAdd_of_mem (s : List String) (w v : String) (h : v ∈ s) :
    v ∈ spacingAdd s w := mem_guardAdd_of_mem _ _ _ _ h

theorem nodup_spacingStep (s : List String) (c : ComputedStyle) (h : s.Nodup) :
    (spacingStep s c).Nodup :=
  foldl_preserve spacingAdd List.Nodup (fun s2 v h2 => nodup_spacingAdd s2 v h2)
    (spacingVals c) s h

theorem mem_spacingStep_of_mem (s : List String) (c : ComputedStyle) (v : String)
    (h : v ∈ s) : v ∈ spacingStep s c :=
  foldl_preserve spacingAdd (fun s2 => v ∈ s2)
    (fun s2 w h2 => mem_spacingAdd_of_mem s2 w v h2) (spacingVals c) s h

theorem zero_not_mem_spacingStep (s : List String) (c : ComputedStyle)
    (h : "0px" ∉ s) : "0px" ∉ spacingStep s c :=
  foldl_preserve spacingAdd (fun s2 => "0px" ∉ s2)
    (fun _ _ h2 => not_mem_guardAdd _ _ _ _ h2 (fun hc => hc.2)) (spacingVals c) s h

theorem mem_spacingStep_self (s : List String) (c : ComputedStyle) (v : String)
    (hv : v ∈ spacingVals c) (h1 : v ≠ "") (h2 : v ≠ "0px") : v ∈ spacingStep s c :=
  foldl_mem_of_step spacingAdd v (fun s2 w h => mem_spacingAdd_of_mem s2 w v h)
    (spacingVals c) s v hv (fun _ => mem_guardAdd_self _ _ _ ⟨h1, h2⟩)

theorem nodup_radiusStep (s : List String) (c : ComputedStyle) (h : s.Nodup) :
    (radiusStep s c).Nodup := nodup_guardAdd _ _ _ h

theorem mem_radiusStep_of_mem (s : List String) (c : ComputedStyle) (v : String)
    (h : v ∈ s) : v ∈ radiusStep s c := mem_guardAdd_of_mem _ _ _ _ h

theorem mem_radiusStep_self (s : List String) (c : ComputedStyle)
    (h1 : c.borderRadius ≠ "") (h2 : c.borderRadius ≠ "0px") :
    c.borderRadius ∈ radiusStep s c := mem_guardAdd_self _ _ _ ⟨h1, h2⟩

theorem nodup_shadowStep (s : List String) (c : ComputedStyle) (h : s.Nodup) :
    (shadowStep s c).Nodup := nodup_guardAdd _ _ _ h

theorem mem_shadowStep_of_mem (s : List String) (c : ComputedStyle) (v : String)
    (h : v ∈ s) : v ∈ shadowStep s c := mem_guardAdd_of_mem _ _ _ _ h

theorem none_not_mem_shadowStep (s : List String) (c : ComputedStyle)
    (h : "none" ∉ s) : "none" ∉ shadowStep s c :=
  not_mem_guardAdd _ _ _ _ h (fun hc => hc.2)

theorem mem_shadowStep_self (s : List String) (c : ComputedStyle)
    (h1 : c.boxShadow ≠ "") (h2 : c.boxShadow ≠ "none") :
    c.boxShadow ∈ shadowStep s c := mem_guardAdd_self _ _ _ ⟨h1, h2⟩

theorem nodup_gradientStep (s : List String) (c : ComputedStyle) (h : s.Nodup) :
    (gradientStep s c).Nodup := nodup_guardAdd _ _ _ h

theorem mem_gradientStep_of_mem (s : List String) (c : ComputedStyle) (v : String)
    (h : v ∈ s) : v ∈ gradientStep s c := mem_guardAdd_of_mem _ _ _ _ h

theorem gradientStep_infix (s : List String) (c : ComputedStyle)
    (h : ∀ g ∈ s, "gradient".data <:+: g.data) :
    ∀ g ∈ gradientStep s c, "gradient".data <:+: g.data := by
  intro g hg
  unfold gradientStep at hg
  rcases (mem_guardAdd_iff _ _ _ _).mp hg with h2 | ⟨⟨_, hinc⟩, rfl⟩
  · exact h g h2
  · exact (includesSub_iff _ _).mp hinc

theorem mem_gradientStep_self (s : List String) (c : ComputedStyle)
    (h1 : c.backgroundImage ≠ "") (h2 : "gradient".data <:+: c.backgroundImage.data) :
    c.backgroundImage ∈ gradientStep s c :=
  mem_guardAdd_self _ _ _ ⟨h1, (includesSub_iff _ _).mpr h2⟩

theorem foldl_tokenStep_colors :
    ∀ (l : List DomNode) (t : DesignTokens),
      (l.foldl tokenStep t).colors = l.foldl (fun s el => colorStep s el.computed) t.colors := by
  intro l
  induction l with
  | nil => intro t; rfl
  | cons x xs ih =>
    intro t
    rw [List.foldl_cons, List.foldl_cons, ih]
    rfl

theorem foldl_tokenStep_fonts :
    ∀ (l : List DomNode) (t : DesignTokens),
      (l.foldl tokenStep t).fonts = l.foldl (fun s el => fontStep s el.computed) t.fonts := by
  intro l
  induction l with
  | nil => intro t; rfl
  | cons x xs ih =>
    intro t
    rw [List.foldl_cons, List.foldl_cons, ih]
    rfl

theorem foldl_tokenStep_spacing :
    ∀ (l : List DomNode) (t : DesignTokens),
      (l.foldl tokenStep t).spacing = l.foldl (fun s el => spacingStep s el.computed) t.spacing := by
  intro l
  induction l with
  | nil => intro t; rfl
  | cons x xs ih =>
    intro t
    rw [List.foldl_cons, List.foldl_cons, ih]
    rfl

theorem foldl_tokenStep_radius :
    ∀ (l : List DomNode) (t : DesignTokens),
      (l.foldl tokenStep t).borderRadius =
        l.foldl (fun s el => radiusStep s el.computed) t.borderRadius := by
  intro l
  induction l with
  | nil => intro t; rfl
  | cons x xs ih =>
    intro t
    rw [List.foldl_cons, List.foldl_cons, ih]
    rfl

theorem foldl_tokenStep_shadows :
    ∀ (l : List DomNode) (t : DesignTokens),
      (l.foldl tokenStep t).boxShadows =
        l.foldl (fun s el => shadowStep s el.computed) t.boxShadows := by
  intro l
  induction l with
  | nil => intro t; rfl
  | cons x xs ih =>
    intro t
    rw [List.foldl_cons, List.foldl_cons, ih]
    rfl

theorem foldl_tokenStep_gradients :
    ∀ (l : List DomNode) (t : DesignTokens),
      (l.foldl tokenStep t).gradients =
        l.foldl (fun s el => gradientStep s el.computed) t.gradients := by
  intro l
  induction l with
  | nil => intro t; rfl
  | cons x xs ih =>
    intro t
    rw [List.foldl_cons, List.foldl_cons, ih]
    rfl

/-- C2. Every design-token set is duplicate-free and contains every qualifying
distinct value (so each appears exactly once); the colors set never contains
`rgba(0, 0, 0, 0)`, the spacing set never contains `0px`, the boxShadows set
never contains `none`, and every member of the gradients set textually
contains the substring `gradient` (a computed background-image is added to
that set only under that check). -/
theorem claim2_design_token_sets (doc : DomNode) :
    ((collectDesignTokens doc).colors.Nodup ∧
     (collectDesignTokens doc).fonts.Nodup ∧
     (collectDesignTokens doc).spacing.Nodup ∧
     (collectDesignTokens doc).borderRadius.Nodup ∧
     (collectDesignTokens doc).boxShadows.Nodup ∧
     (collectDesignTokens doc).gradients.Nodup) ∧
    "rgba(0, 0, 0, 0)" ∉ (collectDesignTokens doc).colors ∧
    "0px" ∉ (collectDesignTokens doc).spacing ∧
    "none" ∉ (collectDesignTokens doc).boxShadows ∧
    (∀ g ∈ (collectDesignTokens doc).gradients, "gradient".data <:+: g.data) ∧
    (∀ el ∈ (allNodes doc).map Prod.snd,
      (el.computed.color ≠ "" → el.computed.color ≠ "rgba(0, 0, 0, 0)" →
        el.computed.color ∈ (collectDesignTokens doc).colors) ∧
      (el.computed.backgroundColor ≠ "" → el.computed.backgroundColor ≠ "rgba(0, 0, 0, 0)" →
        el.computed.backgroundColor ∈ (collectDesignTokens doc).colors) ∧
      (el.computed.borderColor ≠ "" → el.computed.borderColor ≠ "rgba(0, 0, 0, 0)" →
        el.computed.borderColor ∈ (collectDesignTokens doc).colors) ∧
      (el.computed.fontFamily ≠ "" →
        el.computed.fontFamily ++ " " ++ el.computed.fontWeight ∈ (collectDesignTokens doc).fonts) ∧
      (∀ v ∈ spacingVals el.computed, v ≠ "" → v ≠ "0px" →
        v ∈ (collectDesignTokens doc).spacing) ∧
      (el.computed.borderRadius ≠ "" → el.computed.borderRadius ≠ "0px" →
        el.computed.borderRadius ∈ (collectDesignTokens doc).borderRadius) ∧
      (el.computed.boxShadow ≠ "" → el.computed.boxShadow ≠ "none" →
        el.computed.boxShadow ∈ (collectDesignTokens doc).boxShadows) ∧
      (el.computed.backgroundImage ≠ "" → "gradient".data <:+: el.computed.backgroundImage.data →
        el.computed.backgroundImage ∈ (collectDesignTokens doc).gradients)) := by
  have hc : (collectDesignTokens doc).colors =
      ((allNodes doc).map Prod.snd).foldl (fun s el => colorStep s el.computed) [] :=
    foldl_tokenStep_colors _ emptyTokens
  have hf : (collectDesignTokens doc).fonts =
      ((allNodes doc).map Prod.snd).foldl (fun s el => fontStep s el.computed) [] :=
    foldl_tokenStep_fonts _ emptyTokens
  have hs : (collectDesignTokens doc).spacing =
      ((allNodes doc).map Prod.snd).foldl (fun s el => spacingStep s el.computed) [] :=
    foldl_tokenStep_spacing _ emptyTokens
  have hr : (collectDesignTokens doc).borderRadius =
      ((allNodes doc).map Prod.snd).foldl (fun s el => radiusStep s el.computed) [] :=
    foldl_tokenStep_radius _ emptyTokens
  have hb : (collectDesignTokens doc).boxShadows =
      ((allNodes doc).map Prod.snd).foldl (fun s el => shadowStep s el.computed) [] :=
    foldl_tokenStep_shadows _ emptyTokens
  have hg : (collectDesignTokens doc).gradients =
      ((allNodes doc).map Prod.snd).foldl (fun s el => gradientStep s el.computed) [] :=
    foldl_tokenStep_gradients _ emptyTokens
  refine ⟨⟨?_, ?_, ?_, ?_, ?_, ?_⟩, ?_, ?_, ?_, ?_, ?_⟩
  · rw [hc]
    exact foldl_preserve (fun s (x : DomNode) => colorStep s x.computed) List.Nodup
      (fun s x h => nodup_colorStep s x.computed h) _ [] List.nodup_nil
  · rw [hf]
    exact foldl_preserve (fun s (x : DomNode) => fontStep s x.computed) List.Nodup
      (fun s x h => nodup_fontStep s x.computed h) _ [] List.nodup_nil
  · rw [hs]
    exact foldl_preserve (fun s (x : DomNode) => spacingStep s x.computed) List.Nodup
      (fun s x h => nodup_spacingStep s x.computed h) _ [] List.nodup_nil
  · rw [hr]
    exact foldl_preserve (fun s (x : DomNode) => radiusStep s x.computed) List.Nodup
      (fun s x h => nodup_radiusStep s x.computed h) _ [] List.nodup_nil
  · rw [hb]
    exact foldl_preserve (fun s (x : DomNode) => shadowStep s x.computed) List.Nodup
      (fun s x h => nodup_shadowStep s x.computed h) _ [] List.nodup_nil
  · rw [hg]
    exact foldl_preserve (fun s (x : DomNode) => gradientStep s x.computed) List.Nodup
      (fun s x h => nodup_gradientStep s x.computed h) _ [] List.nodup_nil
  · rw [hc]
    exact foldl_preserve (fun s (x : DomNode) => colorStep s x.computed)
      (fun s => "rgba(0, 0, 0, 0)" ∉ s)
      (fun s x h => rgba_not_mem_colorStep s x.computed h) _ []
      (List.not_mem_nil _)
  · rw [hs]
    exact foldl_preserve (fun s (x : DomNode) => spacingStep s x.computed)
      (fun s => "0px" ∉ s)
      (fun s x h => zero_not_mem_spacingStep s x.computed h) _ []
      (List.not_mem_nil _)
  · rw [hb]
    exact foldl_preserve (fun s (x : DomNode) => shadowStep s x.computed)
      (fun s => "none" ∉ s)
      (fun s x h => none_not_mem_shadowStep s x.computed h) _ []
      (List.not_mem_nil _)
  · rw [hg]
    exact foldl_preserve (fun s (x : DomNode) => gradientStep s x.computed)
      (fun s => ∀ g ∈ s, "gradient".data <:+: g.data)
      (fun s x h => gradientStep_infix s x.computed h) _ []
      (fun g hgmem => absurd hgmem (List.not_mem_nil g))
  · intro el hel
    refine ⟨?_, ?_, ?_, ?_, ?_, ?_, ?_, ?_⟩
    · intro h1 h2
      rw [hc]
      exact foldl_mem_of_step (fun s (x : DomNode) => colorStep s x.computed) el.computed.color
        (fun s x h => mem_colorStep_of_mem s x.computed _ h) _ [] el hel
        (fun s2 => mem_colorStep_color s2 el.computed h1 h2)
    · intro h1 h2
      rw [hc]
      exact foldl_mem_of_step (fun s (x : DomNode) => colorStep s x.computed) el.computed.backgroundColor
        (fun s x h => mem_colorStep_of_mem s x.computed _ h) _ [] el hel
        (fun s2 => mem_colorStep_background s2 el.computed h1 h2)
    · intro h1 h2
      rw [hc]
      exact foldl_mem_of_step (fun s (x : DomNode) => colorStep s x.computed) el.computed.borderColor
        (fun s x h => mem_colorStep_of_mem s x.computed _ h) _ [] el hel
        (fun s2 => mem_colorStep_border s2 el.computed h1 h2)
    · intro h1
      rw [hf]
      exact foldl_mem_of_step (fun s (x : DomNode) => fontStep s x.computed)
        (el.computed.fontFamily ++ " " ++ el.computed.fontWeight)
        (fun s x h => mem_fontStep_of_mem s x.computed _ h) _ [] el hel
        (fun s2 => mem_fontStep_self s2 el.computed h1)
    · intro v hv h1 h2
      rw [hs]
      exact foldl_mem_of_step (fun s (x : DomNode) => spacingStep s x.computed) v
        (fun s x h => mem_spacingStep_of_mem s x.computed _ h) _ [] el hel
        (fun s2 => mem_spacingStep_self s2 el.computed v hv h1 h2)
    · intro h1 h2
      rw [hr]
      exact foldl_mem_of_step (fun s (x : DomNode) => radiusStep s x.computed) el.computed.borderRadius
        (fun s x h => mem_radiusStep_of_mem s x.computed _ h) _ [] el hel
        (fun s2 => mem_radiusStep_self s2 el.computed h1 h2)
    · intro h1 h2
      rw [hb]
      exact foldl_mem_of_step (fun s (x : DomNode) => shadowStep s x.computed) el.computed.boxShadow
        (fun s x h => mem_shadowStep_of_mem s x.computed _ h) _ [] el hel
        (fun s2 => mem_shadowStep_self s2 el.computed h1 h2)
    · intro h1 h2
      rw [hg]
      exact foldl_mem_of_step (fun s (x : DomNode) => gradientStep s x.computed) el.computed.backgroundImage
        (fun s x h => mem_gradientStep_of_mem s x.computed _ h) _ [] el hel
        (fun s2 => mem_gradientStep_self s2 el.computed h1 h2)

/-- A concrete element carrying a gradient background and a visible color. -/
def gradDoc : DomNode :=
  .mk "div" "" "" []
    { defaultComputed with
        color := "rgb(10, 20, 30)",
        backgroundImage := "linear-gradient(red, blue)" }
    defaultRect "" .nil

theorem claim2_witness :
    "linear-gradient(red, blue)" ∈ (collectDesignTokens gradDoc).gradients ∧
    "rgb(10, 20, 30)" ∈ (collectDesignTokens gradDoc).colors := by
  have hmem : gradDoc ∈ (allNodes gradDoc).map Prod.snd :=
    List.mem_singleton_self gradDoc
  have h := (claim2_design_token_sets gradDoc).2.2.2.2.2 gradDoc hmem
  refine ⟨h.2.2.2.2.2.2.2 (by decide) ?_, h.1 (by decide) (by decide)⟩
  exact (includesSub_iff "gradient" "linear-gradient(red, blue)").mp (by decide)

/-! ## C4: structure of the document-order snapshot -/

theorem flattenFrom_eq_cons (p : List Nat) (t : DomNode) :
    flattenFrom p t = (p, t) :: flattenKids p 0 t.children := by
  match t with
  | .mk tg ia cl a1 cst rc tx children => rfl

theorem forest_length_toList : ∀ cs : DomForest, cs.toList.length = cs.length
  | .nil => rfl
  | .cons c cs => by
    simp [DomForest.toList, DomForest.length, forest_length_toList cs]

mutual
theorem flattenFrom_shape (p : List Nat) (t : DomNode) :
    ∀ q n, (q, n) ∈ flattenFrom p t →
      (q = p ∧ n = t) ∨ ∃ j rest, q = p ++ j :: rest := by
  match t with
  | .mk tg ia cl a1 cst rc tx children =>
    intro q n hq
    simp only [flattenFrom, List.mem_cons] at hq
    rcases hq with h | h
    · exact Or.inl ⟨congrArg Prod.fst h, congrArg Prod.snd h⟩
    · rcases flattenKids_shape p 0 children q n h with ⟨j, rest, hj, _⟩
      exact Or.inr ⟨j, rest, hj⟩
theorem flattenKids_shape (p : List Nat) (i : Nat) (cs : DomForest) :
    ∀ q n, (q, n) ∈ flattenKids p i cs →
      ∃ j rest, q = p ++ j :: rest ∧ i ≤ j := by
  match cs with
  | .nil => intro q n h; simp [flattenKids] at h
  | .cons c cs2 =>
    intro q n hq
    simp only [flattenKids, List.mem_append] at hq
    rcases hq with h | h
    · rcases flattenFrom_shape (p ++ [i]) c q n h with ⟨hq2, _⟩ | ⟨j, r, hr⟩
      · exact ⟨i, [], by simpa using hq2, Nat.le_refl i⟩
      · exact ⟨i, j :: r, by simpa using hr, Nat.le_refl i⟩
    · rcases flattenKids_shape p (i + 1) cs2 q n h with ⟨j, r, hj, hij⟩
      exact ⟨j, r, hj, Nat.le_of_succ_le hij⟩
end

theorem flattenFrom_self (p : List Nat) (t : DomNode) (n : DomNode)
    (h : (p, n) ∈ flattenFrom p t) : n = t := by
  rcases flattenFrom_shape p t p n h with ⟨_, h2⟩ | ⟨j, rest, hj⟩
  · exact h2
  · exfalso
    have h2 := congrArg List.length hj
    rw [List.length_append, List.length_cons] at h2
    omega

mutual
theorem flattenFrom_parent (p : List Nat) (t : DomNode) :
    ∀ q n, (q, n) ∈ flattenFrom p t → q ≠ p →
      ∃ r, (q.dropLast, r) ∈ flattenFrom p t ∧ 0 < r.children.length := by
  match t with
  | .mk tg ia cl a1 cst rc tx children =>
    intro q n hq hne
    simp only [flattenFrom, List.mem_cons] at hq
    rcases hq with h | h
    · exact absurd (congrArg Prod.fst h) hne
    · rcases flattenKids_parent p 0 children q n h with ⟨j, hq2, hmem⟩ | ⟨r, hr, hlen⟩
      · refine ⟨DomNode.mk tg ia cl a1 cst rc tx children, ?_, ?_⟩
        · simp only [flattenFrom, List.mem_cons]
          left
          rw [hq2, List.dropLast_concat]
        · show 0 < children.length
          have hpos := List.length_pos_of_mem hmem
          rw [forest_length_toList children] at hpos
          exact hpos
      · refine ⟨r, ?_, hlen⟩
        simp only [flattenFrom, List.mem_cons]
        exact Or.inr hr
theorem flattenKids_parent (p : List Nat) (i : Nat) (cs : DomForest) :
    ∀ q n, (q, n) ∈ flattenKids p i cs →
      (∃ j, q = p ++ [j] ∧ n ∈ cs.toList) ∨
      (∃ r, (q.dropLast, r) ∈ flattenKids p i cs ∧ 0 < r.children.length) := by
  match cs with
  | .nil => intro q n h; simp [flattenKids] at h
  | .cons c cs2 =>
    intro q n hq
    simp only [flattenKids, List.mem_append] at hq
    rcases hq with h | h
    · rcases flattenFrom_shape (p ++ [i]) c q n h with ⟨hq2, hn⟩ | ⟨j, r0, hq2⟩
      · left
        refine ⟨i, hq2, ?_⟩
        rw [hn]
        exact List.mem_cons_self c cs2.toList
      · have hne : q ≠ p ++ [i] := by
          rw [hq2]
          intro hcontra
          have h2 := congrArg List.length hcontra
          rw [List.length_append, List.length_append, List.length_cons] at h2
          simp at h2
        rcases flattenFrom_parent (p ++ [i]) c q n h hne with ⟨r, hr, hlen⟩
        right
        refine ⟨r, ?_, hlen⟩
        simp only [flattenKids, List.mem_append]
        exact Or.inl hr
    · rcases flattenKids_parent p (i + 1) cs2 q n h with ⟨j, hq2, hmem⟩ | ⟨r, hr, hlen⟩
      · left
        exact ⟨j, hq2, List.mem_cons_of_mem c hmem⟩
      · right
        refine ⟨r, ?_, hlen⟩
        simp only [flattenKids, List.mem_append]
        exact Or.inr hr
end

mutual
theorem flattenFrom_paths_nodup (p : List Nat) (t : DomNode) :
    ((flattenFrom p t).map Prod.fst).Nodup := by
  match t with
  | .mk tg ia cl a1 cst rc tx children =>
    simp only [flattenFrom, List.map_cons, List.nodup_cons]
    constructor
    · intro hp
      rcases List.mem_map.mp hp with ⟨⟨q, n⟩, hqn, hq⟩
      rcases flattenKids_shape p 0 children q n hqn with ⟨j, rest, hj, _⟩
      have hq2 : q = p := hq
      rw [hq2] at hj
      have h2 := congrArg List.length hj
      rw [List.length_append, List.length_cons] at h2
      omega
    · exact flattenKids_paths_nodup p 0 children
theorem flattenKids_paths_nodup (p : List Nat) (i : Nat) (cs : DomForest) :
    ((flattenKids p i cs).map Prod.fst).Nodup := by
  match cs with
  | .nil => simp [flattenKids]
  | .cons c cs2 =>
    simp only [flattenKids, List.map_append]
    rw [List.nodup_append]
    refine ⟨flattenFrom_paths_nodup (p ++ [i]) c, flattenKids_paths_nodup p (i + 1) cs2, ?_⟩
    intro a ha hb
    rcases List.mem_map.mp ha with ⟨⟨q1, n1⟩, hm1, hq1⟩
    rcases List.mem_map.mp hb with ⟨⟨q2, n2⟩, hm2, hq2⟩
    have hsh1 : ∃ rest1, q1 = p ++ i :: rest1 := by
      rcases flattenFrom_shape (p ++ [i]) c q1 n1 hm1 with ⟨hq, _⟩ | ⟨j1, r1, hq⟩
      · exact ⟨[], by simpa using hq⟩
      · exact ⟨j1 :: r1, by simpa using hq⟩
    rcases hsh1 with ⟨rest1, hrest1⟩
    rcases flattenKids_shape p (i + 1) cs2 q2 n2 hm2 with ⟨j2, rest2, hrest2, hj2⟩
    have hq1b : q1 = a := hq1
    have hq2b : q2 = a := hq2
    have heq : q1 = q2 := hq1b.trans hq2b.symm
    rw [hrest1, hrest2] at heq
    have heq2 : i :: rest1 = j2 :: rest2 := List.append_cancel_left heq
    have : i = j2 := (List.cons.injEq _ _ _ _ ▸ heq2).1
    omega
end

theorem findIdxFrom_of_get (x : List Nat) :
    ∀ (l : List (List Nat)) (i j : Nat) (hj : j < l.length),
      l.Nodup → l.get ⟨j, hj⟩ = x → findIdxFrom x i l = some (i + j) := by
  intro l
  induction l with
  | nil => intro i j hj _ _; exact absurd hj (Nat.not_lt_zero j)
  | cons y ys ih =>
    intro i j hj hnd hget
    cases j with
    | zero =>
      have hy : y = x := hget
      simp [findIdxFrom, hy]
    | succ j2 =>
      have hj2 : j2 < ys.length := by simpa using hj
      have hget2 : ys.get ⟨j2, hj2⟩ = x := hget
      have hy : ¬ (y = x) := by
        intro hcontra
        have hx : x ∈ ys := by
          rw [← hget2]
          exact List.get_mem ys j2 hj2
        rcases List.nodup_cons.mp hnd with ⟨hy2, _⟩
        rw [hcontra] at hy2
        exact hy2 hx
      simp only [findIdxFrom, if_neg hy]
      rw [ih (i + 1) j2 hj2 (List.nodup_cons.mp hnd).2 hget2]
      congr 1
      omega

theorem jsIndexOf_of_get (l : List (List Nat)) (x : List Nat) (j : Nat)
    (hj : j < l.length) (hnd : l.Nodup) (hget : l.get ⟨j, hj⟩ = x) :
    jsIndexOf l x = (j : Int) := by
  unfold jsIndexOf
  rw [findIdxFrom_of_get x l 0 j hj hnd hget]
  simp

theorem collectElementData_length (doc : DomNode) :
    (collectElementData doc).length = (allNodes doc).length := by
  simp [collectElementData]

theorem collectElementData_get (doc : DomNode) (i : Nat)
    (h : i < (collectElementData doc).length) (h2 : i < (allNodes doc).length) :
    (collectElementData doc).get ⟨i, h⟩ =
      elementRecordOf doc ((allNodes doc).map Prod.fst)
        (i, (allNodes doc).get ⟨i, h2⟩) := by
  unfold collectElementData
  rw [List.get_map]
  congr 1
  exact List.getElem_enum _ _ _


theorem allNodes_get_zero (doc : DomNode) (h0 : 0 < (allNodes doc).length) :
    (allNodes doc).get ⟨0, h0⟩ = ([], doc) := by
  obtain ⟨tg, ia, cl, a1, cst, rc, tx, children⟩ := doc
  rfl

/-- C4. Indices are dense and unique: the record at position `i` has
`index = i`. `parentIndex` is `null` exactly for the document element (the
only element with no parent element, at position 0), and every non-null
`parentIndex` is a valid index of the same sequence whose record has
`childCount ≥ 1`. -/
theorem claim4_parent_links (doc : DomNode) :
    (∀ i, ∀ h : i < (collectElementData doc).length,
      ((collectElementData doc).get ⟨i, h⟩).index = i) ∧
    (∀ i, ∀ h : i < (collectElementData doc).length,
      (((collectElementData doc).get ⟨i, h⟩).parentIndex = none ↔ i = 0)) ∧
    (∀ i, ∀ h : i < (collectElementData doc).length, ∀ j : Int,
      ((collectElementData doc).get ⟨i, h⟩).parentIndex = some j →
      ∃ (k : Nat) (hk : k < (collectElementData doc).length), j = (k : Int) ∧
        1 ≤ ((collectElementData doc).get ⟨k, hk⟩).childCount) := by
  have hlen := collectElementData_length doc
  have hpathsnodup : ((allNodes doc).map Prod.fst).Nodup := flattenFrom_paths_nodup [] doc
  refine ⟨?_, ?_, ?_⟩
  · intro i h
    have h2 : i < (allNodes doc).length := by rw [hlen] at h; exact h
    rw [collectElementData_get doc i h h2]
    rfl
  · intro i h
    have h2 : i < (allNodes doc).length := by rw [hlen] at h; exact h
    rw [collectElementData_get doc i h h2]
    simp only [elementRecordOf]
    have h0 : 0 < (allNodes doc).length := Nat.lt_of_le_of_lt (Nat.zero_le i) h2
    constructor
    · intro hnone
      by_cases hq : ((allNodes doc).get ⟨i, h2⟩).1 = []
      · have hmlen : i < ((allNodes doc).map Prod.fst).length := by simpa using h2
        have hmlen0 : 0 < ((allNodes doc).map Prod.fst).length := by simpa using h0
        have e1 : ((allNodes doc).map Prod.fst).get ⟨i, hmlen⟩ =
            ((allNodes doc).get ⟨i, h2⟩).1 := by
          rw [List.get_map]
        have e0 : ((allNodes doc).map Prod.fst).get ⟨0, hmlen0⟩ =
            ((allNodes doc).get ⟨0, h0⟩).1 := by
          rw [List.get_map]
        have hpq : ((allNodes doc).map Prod.fst).get ⟨i, hmlen⟩ =
            ((allNodes doc).map Prod.fst).get ⟨0, hmlen0⟩ := by
          rw [e1, e0, hq, allNodes_get_zero doc h0]
        have hfin := (hpathsnodup.get_inj_iff).mp hpq
        exact congrArg Fin.val hfin
      · rw [if_neg hq] at hnone
        exact absurd hnone (by simp)
    · intro hi
      subst hi
      have hq : ((allNodes doc).get ⟨0, h2⟩).1 = [] := by
        rw [allNodes_get_zero doc h2]
      rw [if_pos hq]
  · intro i h jj hjj
    have h2 : i < (allNodes doc).length := by rw [hlen] at h; exact h
    rw [collectElementData_get doc i h h2] at hjj
    simp only [elementRecordOf] at hjj
    by_cases hq : ((allNodes doc).get ⟨i, h2⟩).1 = []
    · rw [if_pos hq] at hjj
      exact absurd hjj (by simp)
    · rw [if_neg hq] at hjj
      have hjj2 : jsIndexOf ((allNodes doc).map Prod.fst)
          ((allNodes doc).get ⟨i, h2⟩).1.dropLast = jj := Option.some.inj hjj
      have hmem : ((allNodes doc).get ⟨i, h2⟩) ∈ allNodes doc := List.get_mem _ _ _
      have hmem2 : (((allNodes doc).get ⟨i, h2⟩).1, ((allNodes doc).get ⟨i, h2⟩).2) ∈
          flattenFrom [] doc := by
        rw [Prod.mk.eta]
        exact hmem
      rcases flattenFrom_parent [] doc _ _ hmem2 hq with ⟨r, hrmem, hrlen⟩
      rcases List.mem_iff_get.mp hrmem with ⟨⟨k, hk⟩, hgetk⟩
      have hk2 : k < (allNodes doc).length := hk
      have hmk : k < ((allNodes doc).map Prod.fst).length := by simpa using hk2
      have hgetk2 : (allNodes doc).get ⟨k, hk2⟩ =
          (((allNodes doc).get ⟨i, h2⟩).1.dropLast, r) := hgetk
      have hpathk : ((allNodes doc).map Prod.fst).get ⟨k, hmk⟩ =
          ((allNodes doc).get ⟨i, h2⟩).1.dropLast := by
        rw [List.get_map, hgetk2]
      have hidx : jsIndexOf ((allNodes doc).map Prod.fst)
          ((allNodes doc).get ⟨i, h2⟩).1.dropLast = (k : Int) :=
        jsIndexOf_of_get _ _ k hmk hpathsnodup hpathk
      have hjk : jj = (k : Int) := by
        rw [← hjj2]
        exact hidx
      have hklen : k < (collectElementData doc).length := by
        rw [hlen]
        exact hk2
      refine ⟨k, hklen, hjk, ?_⟩
      rw [collectElementData_get doc k hklen hk2]
      simp only [elementRecordOf]
      rw [hgetk2]
      exact hrlen

theorem claim4_witness :
    ∃ (k : Nat) (hk : k < (collectElementData scenarioADoc).length),
      (2 : Int) = (k : Int) ∧
      1 ≤ ((collectElementData scenarioADoc).get ⟨k, hk⟩).childCount :=
  (claim4_parent_links scenarioADoc).2.2 3 (by decide) 2 (by decide)

/-- A full analysis of scenario A at the desktop viewport. -/
def runFull : Viewport → AnalysisData :=
  fun _ => assembleAnalysis "https://example.test/" vpDesktop 0 scenarioADoc ⟨0, 0, 0, 0, 0⟩

/-- The same per-viewport analyses with their full pattern lists stripped:
the reduced views are untouched. -/
def runStripped : Viewport → AnalysisData :=
  fun vp => { runFull vp with componentPatterns := [] }

theorem claim9_witness :
    analyzeResponsive runFull = analyzeResponsive runStripped :=
  (claim9_responsive_map runFull).2.2.2 runFull runStripped (fun _ => ⟨rfl, rfl, rfl⟩)
